import Mathlib

/-!
Verification of the prayer-time statusline addon (`setup.js` /
`prayer-time-addon.js`).

The discrete logic of the program (next-event selection, cache freshness
guard, installer idempotence) is embedded over `ℚ`/`ℤ` so that it is
executable and decidable; the astronomical core (`sunPosition`,
`hourAngle`, `calcPrayerTimesUTC`) is embedded over `ℝ`, with JavaScript
`Math.sin` etc. read as real trigonometric functions and number literals
as exact rationals.
-/

namespace PrayerAddon

/-! ## JavaScript arithmetic primitives over ℚ -/

/-- Truncation toward zero, as JavaScript division-based remainder uses. -/
def jsTrunc (x : ℚ) : ℤ := if 0 ≤ x then ⌊x⌋ else ⌈x⌉

/-- JavaScript `x % y`: remainder with the sign of the dividend. -/
def jsRem (x y : ℚ) : ℚ := x - y * (jsTrunc (x / y) : ℚ)

/-- `((t % 24) + 24) % 24` from the source: normalize into `[0, 24)`. -/
def norm24 (t : ℚ) : ℚ := jsRem (jsRem t 24 + 24) 24

theorem jsRem_nonneg_bounds (x y : ℚ) (hx : 0 ≤ x) (hy : 0 < y) :
    0 ≤ jsRem x y ∧ jsRem x y < y := by
  have hq : 0 ≤ x / y := div_nonneg hx hy.le
  have hyne : y ≠ 0 := ne_of_gt hy
  have hxy : y * (x / y) = x := by field_simp
  have h1 : (⌊x / y⌋ : ℚ) ≤ x / y := Int.floor_le _
  have h2 : x / y < ⌊x / y⌋ + 1 := Int.lt_floor_add_one _
  have e1 := mul_le_mul_of_nonneg_left h1 hy.le
  have e2 := mul_lt_mul_of_pos_left h2 hy
  rw [hxy] at e1
  rw [mul_add, hxy, mul_one] at e2
  simp only [jsRem, jsTrunc, if_pos hq]
  constructor <;> linarith

theorem jsRem_neg_bounds (x y : ℚ) (hx : x < 0) (hy : 0 < y) :
    -y < jsRem x y ∧ jsRem x y ≤ 0 := by
  have hq : ¬ (0 ≤ x / y) := by
    rw [not_le]
    exact div_neg_of_neg_of_pos hx hy
  have hyne : y ≠ 0 := ne_of_gt hy
  have hxy : y * (x / y) = x := by field_simp
  have h1 : (⌈x / y⌉ : ℚ) < x / y + 1 := Int.ceil_lt_add_one _
  have h2 : x / y ≤ (⌈x / y⌉ : ℚ) := Int.le_ceil _
  have e1 := mul_lt_mul_of_pos_left h1 hy
  have e2 := mul_le_mul_of_nonneg_left h2 hy.le
  rw [mul_add, hxy, mul_one] at e1
  rw [hxy] at e2
  simp only [jsRem, jsTrunc, if_neg hq]
  constructor <;> linarith

theorem norm24_nonneg (t : ℚ) : 0 ≤ norm24 t := by
  unfold norm24
  rcases lt_or_le t 0 with ht | ht
  · have h := jsRem_neg_bounds t 24 ht (by norm_num)
    exact (jsRem_nonneg_bounds _ 24 (by linarith [h.1]) (by norm_num)).1
  · have h := jsRem_nonneg_bounds t 24 ht (by norm_num)
    exact (jsRem_nonneg_bounds _ 24 (by linarith [h.1]) (by norm_num)).1

theorem norm24_lt (t : ℚ) : norm24 t < 24 := by
  unfold norm24
  rcases lt_or_le t 0 with ht | ht
  · have h := jsRem_neg_bounds t 24 ht (by norm_num)
    exact (jsRem_nonneg_bounds _ 24 (by linarith [h.1]) (by norm_num)).2
  · have h := jsRem_nonneg_bounds t 24 ht (by norm_num)
    exact (jsRem_nonneg_bounds _ 24 (by linarith [h.1]) (by norm_num)).2

/-! ## Prayer instant sets and the next-event selector -/

/-- The six named optional UTC instants returned by `calcPrayerTimesUTC`
(here with exact rational instants, as consumed by `nextPrayer`). -/
structure PrayerSet where
  Fajr : Option ℚ
  Sunrise : Option ℚ
  Dhuhr : Option ℚ
  Asr : Option ℚ
  Maghrib : Option ℚ
  Isha : Option ℚ
deriving DecidableEq

/-- The canonical walk of `names = ['Fajr', ..., 'Isha']` paired with the
`prayerTimesUTC[name]` lookups, in source order. -/
def slots (p : PrayerSet) : List (String × Option ℚ) :=
  [("Fajr", p.Fajr), ("Sunrise", p.Sunrise), ("Dhuhr", p.Dhuhr),
   ("Asr", p.Asr), ("Maghrib", p.Maghrib), ("Isha", p.Isha)]

/-- The `for (const name of names)` loop of `nextPrayer`: skip null slots,
return the first event whose normalized instant is `> now` together with
`Math.round((pt - now) * 60)`. -/
def nextPrayerLoop (now : ℚ) : List (String × Option ℚ) → Option (String × ℤ)
  | [] => none
  | (name, t?) :: rest =>
    match t? with
    | none => nextPrayerLoop now rest
    | some t =>
      if now < norm24 t then some (name, round ((norm24 t - now) * 60))
      else nextPrayerLoop now rest

/-- `nextPrayer(prayerTimesUTC, nowUTC)` from the source: the loop over the
six names, then the Fajr-tomorrow fallback with
`Math.round(((pt + 24) - now) * 60)`, else `null`. -/
def nextPrayer (p : PrayerSet) (nowUTC : ℚ) : Option (String × ℤ) :=
  match nextPrayerLoop (norm24 nowUTC) (slots p) with
  | some r => some r
  | none =>
    match p.Fajr with
    | some fajr => some ("Fajr (tomorrow)", round ((norm24 fajr + 24 - norm24 nowUTC) * 60))
    | none => none

/-- Spec-side view: the solvable events of a walk, in order, with
normalized instants. -/
def solvedEvents : List (String × Option ℚ) → List (String × ℚ)
  | [] => []
  | (_, none) :: rest => solvedEvents rest
  | (n, some t) :: rest => (n, norm24 t) :: solvedEvents rest

theorem nextPrayerLoop_eq_find (now : ℚ) (l : List (String × Option ℚ)) :
    nextPrayerLoop now l =
      ((solvedEvents l).find? (fun e => decide (now < e.2))).map
        (fun e => (e.1, round ((e.2 - now) * 60))) := by
  induction l with
  | nil => rfl
  | cons hd rest ih =>
    obtain ⟨name, t?⟩ := hd
    cases t? with
    | none => simpa [nextPrayerLoop, solvedEvents] using ih
    | some t =>
      by_cases hlt : now < norm24 t
      · simp [nextPrayerLoop, solvedEvents, hlt, List.find?]
      · simpa [nextPrayerLoop, solvedEvents, hlt, List.find?] using ih

/-- C1: if some solvable event (in canonical order) has normalized instant
strictly greater than the normalized `now`, `nextPrayer` returns the first
such one with `minutesLeft = round((instant - now) * 60)`, and the returned
instant is strictly greater than `now` (an event at exactly `now` is
skipped by the strict comparison). -/
theorem nextPrayer_first_future (p : PrayerSet) (now0 : ℚ) (n : String) (pt : ℚ)
    (h : (solvedEvents (slots p)).find? (fun e => decide (norm24 now0 < e.2)) =
      some (n, pt)) :
    nextPrayer p now0 = some (n, round ((pt - norm24 now0) * 60)) ∧ norm24 now0 < pt := by
  have hloop := nextPrayerLoop_eq_find (norm24 now0) (slots p)
  rw [h] at hloop
  have hp := List.find?_some h
  have hpt : norm24 now0 < pt := by simpa using hp
  refine ⟨?_, hpt⟩
  unfold nextPrayer
  rw [hloop]
  rfl

/-- Witness for C1 at a concrete input. -/
theorem nextPrayer_first_future_witness :
    nextPrayer ⟨some 5, none, some 12, none, none, some 20⟩ 13 =
      some ("Isha", round (((20 : ℚ) - norm24 13) * 60)) ∧ norm24 13 < 20 :=
  nextPrayer_first_future ⟨some 5, none, some 12, none, none, some 20⟩ 13 "Isha" 20
    (by norm_num [slots, solvedEvents, List.find?, norm24, jsRem, jsTrunc])

/-- C6: if Fajr is unsolvable and every solvable event's normalized instant
is at most `now`, `nextPrayer` returns `none` - an ordinary value of the
total selector function, not an error. -/
theorem nextPrayer_none_when_fajr_unsolvable (p : PrayerSet) (now0 : ℚ)
    (hF : p.Fajr = none)
    (hall : ∀ e ∈ solvedEvents (slots p), e.2 ≤ norm24 now0) :
    nextPrayer p now0 = none := by
  have hloop := nextPrayerLoop_eq_find (norm24 now0) (slots p)
  have hfind : (solvedEvents (slots p)).find? (fun e => decide (norm24 now0 < e.2)) =
      none := by
    rw [List.find?_eq_none]
    intro e he
    simpa using not_lt_of_le (hall e he)
  rw [hfind] at hloop
  unfold nextPrayer
  rw [hloop, hF]
  rfl

/-- Witness for C6 at a concrete input. -/
theorem nextPrayer_none_when_fajr_unsolvable_witness :
    nextPrayer ⟨none, some 3, none, none, none, none⟩ 4 = none :=
  nextPrayer_none_when_fajr_unsolvable ⟨none, some 3, none, none, none, none⟩ 4
    rfl (by norm_num [slots, solvedEvents, norm24, jsRem, jsTrunc])

/-- Counterexample to C2 as stated: in the all-passed wrap case the
minutes-remaining value can be exactly 1440 (when Fajr's normalized
instant equals `now`) and exactly 0 (when `now` is within half a minute of
midnight and Fajr is at instant 0), so the claimed strict bounds
`0 < minutesLeft < 1440` both fail. -/
theorem nextPrayer_wrap_strict_bounds_fail :
    (nextPrayer ⟨some 5, none, none, none, none, none⟩ 5 =
        some ("Fajr (tomorrow)", 1440) ∧
      (∀ e ∈ solvedEvents (slots ⟨some 5, none, none, none, none, none⟩),
          e.2 ≤ norm24 5) ∧
      ¬ ((1440 : ℤ) < 1440)) ∧
    (nextPrayer ⟨some 0, none, none, none, none, none⟩ (5759 / 240) =
        some ("Fajr (tomorrow)", 0) ∧
      (∀ e ∈ solvedEvents (slots ⟨some 0, none, none, none, none, none⟩),
          e.2 ≤ norm24 (5759 / 240)) ∧
      ¬ ((0 : ℤ) < 0)) := by
  refine ⟨⟨?_, ?_, by norm_num⟩, ⟨?_, ?_, by norm_num⟩⟩
  · norm_num [nextPrayer, nextPrayerLoop, slots, norm24, jsRem, jsTrunc, round_eq]
  · norm_num [slots, solvedEvents, norm24, jsRem, jsTrunc]
  · norm_num [nextPrayer, nextPrayerLoop, slots, norm24, jsRem, jsTrunc, round_eq]
  · norm_num [slots, solvedEvents, norm24, jsRem, jsTrunc]

/-- C2 (amended): in the wrap case `nextPrayer` returns the Fajr-tomorrow
variant with `minutesLeft = round(((instant + 24) - now) * 60)`, and this
value satisfies `0 ≤ minutesLeft ≤ 1440`; both bounds are attained, so the
claimed strict bounds hold only non-strictly. -/
theorem nextPrayer_wrap (p : PrayerSet) (now0 : ℚ) (f : ℚ)
    (hf : p.Fajr = some f)
    (hall : ∀ e ∈ solvedEvents (slots p), e.2 ≤ norm24 now0) :
    nextPrayer p now0 =
      some ("Fajr (tomorrow)", round ((norm24 f + 24 - norm24 now0) * 60)) ∧
    0 ≤ round ((norm24 f + 24 - norm24 now0) * 60) ∧
    round ((norm24 f + 24 - norm24 now0) * 60) ≤ 1440 := by
  have hloop := nextPrayerLoop_eq_find (norm24 now0) (slots p)
  have hfind : (solvedEvents (slots p)).find? (fun e => decide (norm24 now0 < e.2)) =
      none := by
    rw [List.find?_eq_none]
    intro e he
    simpa using not_lt_of_le (hall e he)
  rw [hfind] at hloop
  have hmem : ("Fajr", norm24 f) ∈ solvedEvents (slots p) := by
    simp [slots, solvedEvents, hf]
  have hle : norm24 f ≤ norm24 now0 := hall _ hmem
  have h0f := norm24_nonneg f
  have h0n := norm24_nonneg now0
  have hltn := norm24_lt now0
  refine ⟨?_, ?_, ?_⟩
  · unfold nextPrayer
    rw [hloop, hf]
    rfl
  · rw [round_eq, Int.le_floor]
    push_cast
    linarith
  · rw [round_eq]
    have hfl : (⌊(norm24 f + 24 - norm24 now0) * 60 + 1 / 2⌋ : ℤ) < 1441 := by
      rw [Int.floor_lt]
      push_cast
      linarith
    omega

/-- Witness for the amended C2 at a concrete input. -/
theorem nextPrayer_wrap_witness :
    nextPrayer ⟨some 5, none, none, none, none, none⟩ 6 =
      some ("Fajr (tomorrow)", round ((norm24 5 + 24 - norm24 6) * 60)) ∧
    0 ≤ round ((norm24 5 + 24 - norm24 6) * 60) ∧
    round ((norm24 5 + 24 - norm24 6) * 60) ≤ 1440 :=
  nextPrayer_wrap ⟨some 5, none, none, none, none, none⟩ 6 5 rfl
    (by norm_num [slots, solvedEvents, norm24, jsRem, jsTrunc])

/-! ## Cache store -/

/-- Location record as fetched by `fetchLocation`. -/
structure Loc where
  lat : ℚ
  lon : ℚ
  city : Option String
deriving DecidableEq

/-- A well-formed persisted cache record, as written by `writeCache` in
`main`: version tag, creation timestamp (epoch ms), location, prayer set.
A file that is missing, unparsable, or lacks any of these mandatory fields
is a corrupt payload, modeled as `none` at the `Option CacheEntry` level. -/
structure CacheEntry where
  version : ℤ
  timestamp : ℤ
  location : Loc
  prayerTimesUTC : PrayerSet
deriving DecidableEq

def CACHE_VERSION : ℤ := 2

def CACHE_TTL_MS : ℤ := 60 * 60 * 1000

/-- `readCache`: parse the file (corrupt/missing gives `null`), rejecting
any entry whose version tag differs from `CACHE_VERSION`. -/
def readCache (file : Option CacheEntry) : Option CacheEntry :=
  match file with
  | none => none
  | some data => if data.version ≠ CACHE_VERSION then none else some data

/-- The cache-use guard in `main`:
`cache && cache.timestamp && (now - cache.timestamp) < CACHE_TTL_MS &&
cache.location && cache.prayerTimesUTC`. A numeric `cache.timestamp` is
truthy exactly when nonzero; the `location`/`prayerTimesUTC` fields of a
well-formed entry are objects, hence always truthy. -/
def cacheGet (file : Option CacheEntry) (now : ℤ) : Option CacheEntry :=
  match readCache file with
  | none => none
  | some cache =>
    if cache.timestamp ≠ 0 ∧ now - cache.timestamp < CACHE_TTL_MS then some cache
    else none

/-- Counterexample to C4 as stated: an entry with the current version tag
and age strictly under the freshness window is nevertheless a miss when its
timestamp is 0, because the guard `cache.timestamp && ...` treats a zero
timestamp as falsy. -/
theorem cacheGet_zero_timestamp_miss :
    (CacheEntry.mk 2 0 ⟨0, 0, none⟩ ⟨none, none, none, none, none, none⟩).version =
        CACHE_VERSION ∧
    1 - (CacheEntry.mk 2 0 ⟨0, 0, none⟩
        ⟨none, none, none, none, none, none⟩).timestamp < CACHE_TTL_MS ∧
    cacheGet (some (CacheEntry.mk 2 0 ⟨0, 0, none⟩
        ⟨none, none, none, none, none, none⟩)) 1 = none := by
  refine ⟨rfl, by norm_num [CACHE_TTL_MS], ?_⟩
  norm_num [cacheGet, readCache, CACHE_VERSION, CACHE_TTL_MS]

/-- C4 (amended): the cache read yields the stored entry iff its version
tag equals `CACHE_VERSION`, its timestamp is nonzero (a zero timestamp is
falsy in the guard and is treated as a miss), and `now - timestamp` is
strictly under the freshness window; every other condition -
missing/corrupt file, version mismatch regardless of age, zero timestamp,
expiry - yields the same indistinguishable miss (`none`). -/
theorem cacheGet_characterization (e : CacheEntry) (now : ℤ) :
    (cacheGet (some e) now = some e ↔
      e.version = CACHE_VERSION ∧ e.timestamp ≠ 0 ∧ now - e.timestamp < CACHE_TTL_MS) ∧
    (cacheGet (some e) now = some e ∨ cacheGet (some e) now = none) ∧
    cacheGet (none : Option CacheEntry) now = none := by
  refine ⟨?_, ?_, rfl⟩ <;>
  · unfold cacheGet readCache
    by_cases hv : e.version = CACHE_VERSION
    · by_cases h0 : e.timestamp = 0
      · simp [hv, h0]
      · by_cases hts : now - e.timestamp < CACHE_TTL_MS
        · simp [hv, h0, hts]
        · simp [hv, h0, hts]
    · simp [hv]

/-! ## Installer (`setup.js` install path) -/

/-- A `statusLine` settings object: a `type` tag and a command string
(modeled as a character list; an empty command is falsy). -/
structure StatusLine where
  type : List Char
  command : List Char
deriving DecidableEq

/-- The two settings fields the installer touches: `statusLine` and the
`_prayerAddonPreviousStatusLine` backup. -/
structure Settings where
  statusLine : Option StatusLine
  prevStatusLine : Option StatusLine
deriving DecidableEq

/-- Whether the installer exited before the settings-write step
(`alreadyInstalled`, carrying the untouched settings) or wrote new
settings. -/
inductive InstallResult where
  | alreadyInstalled (settings : Settings)
  | installed (settings : Settings)
deriving DecidableEq

def listStartsWith : List Char → List Char → Bool
  | [], _ => true
  | _ :: _, [] => false
  | a :: as, b :: bs => a = b && listStartsWith as bs

/-- `haystack.includes(needle)` for command strings. -/
def containsSub (needle : List Char) : List Char → Bool
  | [] => listStartsWith needle []
  | c :: rest => listStartsWith needle (c :: rest) || containsSub needle rest

/-- The marker substring checked by `existing.command.includes(...)`. -/
def addonMarker : List Char := "prayer-time-addon.js".data

/-- The no-existing-statusline branch: the addon becomes the sole
statusline; a falsy-command existing object is still backed up. -/
def installSole (settings : Settings) (addonCommand : List Char) : Settings :=
  { statusLine := some ⟨"command".data, addonCommand⟩,
    prevStatusLine :=
      match settings.statusLine with
      | some existing => some existing
      | none => settings.prevStatusLine }

/-- The statusLine-merge step of `setup.js` (source lines 78-103). -/
def install (settings : Settings) (addonCommand : List Char) : InstallResult :=
  match settings.statusLine with
  | some existing =>
    if existing.command ≠ [] then
      if containsSub addonMarker existing.command then
        .alreadyInstalled settings
      else
        .installed
          { statusLine :=
              some ⟨"command".data, addonCommand ++ " -- ".data ++ existing.command⟩,
            prevStatusLine := some existing }
    else .installed (installSole settings addonCommand)
  | none => .installed (installSole settings addonCommand)

/-- C10: when the settings already hold a statusLine whose command contains
the addon marker, a re-run exits before the settings-write step, leaving
both the statusLine and the backup field unchanged. -/
theorem install_idempotent (s : Settings) (cmd : List Char) (ex : StatusLine)
    (hs : s.statusLine = some ex)
    (hm : containsSub addonMarker ex.command = true) :
    install s cmd = .alreadyInstalled s := by
  have hne : ex.command ≠ [] := by
    intro hnil
    rw [hnil] at hm
    exact absurd hm (by decide)
  unfold install
  rw [hs]
  simp [hne, hm]

/-- Witness for C10 at a concrete input. -/
theorem install_idempotent_witness :
    install ⟨some ⟨"command".data, "node prayer-time-addon.js".data⟩, none⟩ "x".data =
      .alreadyInstalled ⟨some ⟨"command".data, "node prayer-time-addon.js".data⟩, none⟩ :=
  install_idempotent _ "x".data ⟨"command".data, "node prayer-time-addon.js".data⟩
    rfl (by decide)

/-! ## The astronomical core over ℝ

JavaScript `Math.sin` etc. are read as the real functions, `Math.atan2` as
the complex argument, and `%` as the real remainder with the dividend's
sign. -/

/-- `julianDay(date)` on (year, month, day); `Math.floor` division on
integers is floor division. -/
def julianDay (Y M D : ℤ) : ℤ :=
  Int.fdiv (153 * (M + 12 * Int.fdiv (14 - M) 12 - 3) + 2) 5 + D +
    365 * (Y + 4800 - Int.fdiv (14 - M) 12) +
    Int.fdiv (Y + 4800 - Int.fdiv (14 - M) 12) 4 -
    Int.fdiv (Y + 4800 - Int.fdiv (14 - M) 12) 100 +
    Int.fdiv (Y + 4800 - Int.fdiv (14 - M) 12) 400 - 32045

noncomputable section

open Real

/-- `DEG = Math.PI / 180`. -/
def DEG : ℝ := π / 180

/-- Truncation toward zero on ℝ (JavaScript remainder semantics). -/
def jsTruncR (x : ℝ) : ℤ := if 0 ≤ x then ⌊x⌋ else ⌈x⌉

/-- JavaScript `x % y` on ℝ. -/
def jsRemR (x y : ℝ) : ℝ := x - y * (jsTruncR (x / y) : ℝ)

/-- `Math.atan2(y, x)`: the argument of the point `(x, y)`, in `(-π, π]`,
with `atan2(0, 0) = 0`. -/
def jsAtan2 (y x : ℝ) : ℝ := Complex.arg ⟨x, y⟩

/-- `D = jd - 2451545.0` in `sunPosition`. -/
def sunD (jd : ℝ) : ℝ := jd - 2451545

/-- Mean anomaly `g` (radians). -/
def sunG (jd : ℝ) : ℝ := (357.529 + 0.98560028 * sunD jd) * DEG

/-- Mean longitude `q` (degrees, reduced by `% 360`). -/
def sunQ (jd : ℝ) : ℝ := jsRemR (280.459 + 0.98564736 * sunD jd) 360

/-- Ecliptic longitude `L` (radians). -/
def sunL (jd : ℝ) : ℝ :=
  (sunQ jd + 1.915 * sin (sunG jd) + 0.020 * sin (2 * sunG jd)) * DEG

/-- Obliquity `e` (radians). -/
def sunE (jd : ℝ) : ℝ := (23.439 - 0.00000036 * sunD jd) * DEG

/-- Right ascension `RA` in hours, from `Math.atan2` (range `(-12, 12]`). -/
def sunRA (jd : ℝ) : ℝ := jsAtan2 (cos (sunE jd) * sin (sunL jd)) (cos (sunL jd)) / DEG / 15

/-- Declination `dec = Math.asin(Math.sin(e) * Math.sin(L))`. -/
def sunDec (jd : ℝ) : ℝ := arcsin (sin (sunE jd) * sin (sunL jd))

/-- Equation of time `EqT = q / 15 - ((RA + 360) % 24)` (hours). -/
def sunEqT (jd : ℝ) : ℝ := sunQ jd / 15 - jsRemR (sunRA jd + 360) 24

/-- `sunPosition(jd)` returning `{ dec, EqT }`. -/
def sunPosition (jd : ℝ) : ℝ × ℝ := (sunDec jd, sunEqT jd)

/-- `hourAngle(angle, lat, dec)`: `null` when the pole-on geometry makes
the denominator negligible or the cosine argument leaves `[-1, 1]`. -/
def hourAngle (angle lat dec : ℝ) : Option ℝ :=
  if |cos (lat * DEG) * cos dec| < 1 / 10 ^ 10 then none
  else if (-sin (angle * DEG) - sin (lat * DEG) * sin dec) / (cos (lat * DEG) * cos dec) < -1 ∨
      1 < (-sin (angle * DEG) - sin (lat * DEG) * sin dec) / (cos (lat * DEG) * cos dec) then
    none
  else
    some (arccos ((-sin (angle * DEG) - sin (lat * DEG) * sin dec) /
      (cos (lat * DEG) * cos dec)) / DEG / 15)

/-- The inner `prayerTime(angle, direction)` helper of
`calcPrayerTimesUTC`. -/
def prayerTime (lat dec noon angle : ℝ) (before : Bool) : Option ℝ :=
  (hourAngle angle lat dec).map (fun ha => noon + (if before then -ha else ha))

/-- The Asr shadow-angle expression: the sun's altitude at the single
shadow ratio, negated before being passed to `hourAngle`. -/
def shadowAngle (lat dec : ℝ) : ℝ :=
  Real.arctan (1 / (1 + Real.tan |lat * DEG - dec|)) / DEG

/-- The six optional fractional-UTC-hour instants of
`calcPrayerTimesUTC`. -/
structure PrayerTimes where
  Fajr : Option ℝ
  Sunrise : Option ℝ
  Dhuhr : Option ℝ
  Asr : Option ℝ
  Maghrib : Option ℝ
  Isha : Option ℝ

/-- `calcPrayerTimesUTC(date, lat, lon)` with the hardcoded ISNA angles
(Fajr/Isha 15 degrees, sunrise/sunset 0.833 degrees, shadow multiplier
1). -/
def calcPrayerTimesUTC (Y M D : ℤ) (lat lon : ℝ) : PrayerTimes :=
  let dec := sunDec (julianDay Y M D : ℝ)
  let noon := 12 - sunEqT (julianDay Y M D : ℝ)
  let toUTC : Option ℝ → Option ℝ := fun t => t.map (fun v => v - lon / 15)
  { Fajr := toUTC (prayerTime lat dec noon 15 true),
    Sunrise := toUTC (prayerTime lat dec noon 0.833 true),
    Dhuhr := toUTC (some noon),
    Asr := toUTC (prayerTime lat dec noon (-(shadowAngle lat dec)) false),
    Maghrib := toUTC (prayerTime lat dec noon 0.833 false),
    Isha := toUTC (prayerTime lat dec noon 15 false) }

theorem jsRemR_eq_floor (x y : ℝ) (hx : 0 ≤ x) (hy : 0 < y) :
    jsRemR x y = x - y * (⌊x / y⌋ : ℝ) := by
  have hq : 0 ≤ x / y := div_nonneg hx hy.le
  simp [jsRemR, jsTruncR, if_pos hq]

theorem sunRA_bounds (jd : ℝ) : -12 < sunRA jd ∧ sunRA jd ≤ 12 := by
  have h1 := Complex.neg_pi_lt_arg ⟨cos (sunL jd), cos (sunE jd) * sin (sunL jd)⟩
  have h2 := Complex.arg_le_pi ⟨cos (sunL jd), cos (sunE jd) * sin (sunL jd)⟩
  have hpi : (0 : ℝ) < π := pi_pos
  unfold sunRA jsAtan2 DEG
  rw [div_div]
  have hden : (0 : ℝ) < π / 180 * 15 := by positivity
  constructor
  · rw [lt_div_iff₀ hden]
    nlinarith
  · rw [div_le_iff₀ hden]
    nlinarith

/-- C7: for every day number, `sunPosition` returns declination
`arcsin(sin(obliquity) * sin(ecliptic longitude))` and equation of time
`q / 15 - r` where `r` is the representative of the right ascension
(in hours) modulo 24 lying in `[0, 24)`; the function is total, and the
`+ 360` offset in `(RA + 360) % 24` is exactly a mod-24 reduction because
`RA` lies in `(-12, 12]`. -/
theorem sunPosition_spec (jd : ℝ) :
    sunPosition jd =
      (arcsin (sin (sunE jd) * sin (sunL jd)),
        sunQ jd / 15 - (sunRA jd - 24 * (⌊sunRA jd / 24⌋ : ℝ))) ∧
    0 ≤ sunRA jd - 24 * (⌊sunRA jd / 24⌋ : ℝ) ∧
    sunRA jd - 24 * (⌊sunRA jd / 24⌋ : ℝ) < 24 := by
  obtain ⟨hra1, hra2⟩ := sunRA_bounds jd
  have hmod : jsRemR (sunRA jd + 360) 24 = sunRA jd - 24 * (⌊sunRA jd / 24⌋ : ℝ) := by
    rw [jsRemR_eq_floor _ 24 (by linarith) (by norm_num)]
    have hdiv : (sunRA jd + 360) / 24 = sunRA jd / 24 + (15 : ℤ) := by
      push_cast
      ring
    rw [hdiv, Int.floor_add_int]
    push_cast
    ring
  have hfl : (⌊sunRA jd / 24⌋ : ℝ) ≤ sunRA jd / 24 := Int.floor_le _
  have hfu : sunRA jd / 24 < (⌊sunRA jd / 24⌋ : ℝ) + 1 := Int.lt_floor_add_one _
  have hself : 24 * (sunRA jd / 24) = sunRA jd := by ring
  refine ⟨?_, by nlinarith, by nlinarith⟩
  unfold sunPosition sunDec sunEqT
  rw [hmod]

/-- C9: for every date and location the Dhuhr slot is always present and
equals `(12 - equationOfTime) - lon / 15`; only the five
hour-angle-derived slots can be unsolvable. -/
theorem calc_Dhuhr_total (Y M D : ℤ) (lat lon : ℝ) :
    (calcPrayerTimesUTC Y M D lat lon).Dhuhr =
      some ((12 - sunEqT (julianDay Y M D : ℝ)) - lon / 15) := rfl

/-- C8: `calcPrayerTimesUTC` is deterministic - two invocations on equal
(date, latitude, longitude) inputs yield identical six-slot results; the
embedded function reads nothing outside its arguments. -/
theorem calc_deterministic (Y₁ M₁ D₁ : ℤ) (lat₁ lon₁ : ℝ)
    (Y₂ M₂ D₂ : ℤ) (lat₂ lon₂ : ℝ)
    (hY : Y₁ = Y₂) (hM : M₁ = M₂) (hD : D₁ = D₂) (hlat : lat₁ = lat₂)
    (hlon : lon₁ = lon₂) :
    calcPrayerTimesUTC Y₁ M₁ D₁ lat₁ lon₁ = calcPrayerTimesUTC Y₂ M₂ D₂ lat₂ lon₂ := by
  rw [hY, hM, hD, hlat, hlon]

/-- Witness for C8 at a concrete input. -/
theorem calc_deterministic_witness :
    calcPrayerTimesUTC 2023 12 21 0 0 = calcPrayerTimesUTC 2023 12 21 0 0 :=
  calc_deterministic 2023 12 21 0 0 2023 12 21 0 0 rfl rfl rfl rfl rfl

/-- C3: `hourAngle` is unsolvable (`none`) exactly when `|den|` is below
the negligibility threshold or `num / den` leaves `[-1, 1]`, where
`num = -sin(angle) - sin(lat) * sin(dec)` and `den = cos(lat) * cos(dec)`;
otherwise it returns `arccos(num / den)` divided by 15 degrees per hour. -/
theorem hourAngle_spec (angle lat dec : ℝ) :
    hourAngle angle lat dec =
      if |cos (lat * DEG) * cos dec| < 1 / 10 ^ 10 ∨
          (-sin (angle * DEG) - sin (lat * DEG) * sin dec) /
              (cos (lat * DEG) * cos dec) < -1 ∨
          1 < (-sin (angle * DEG) - sin (lat * DEG) * sin dec) /
              (cos (lat * DEG) * cos dec) then
        none
      else
        some (arccos ((-sin (angle * DEG) - sin (lat * DEG) * sin dec) /
          (cos (lat * DEG) * cos dec)) / DEG / 15) := by
  unfold hourAngle
  by_cases h1 : |cos (lat * DEG) * cos dec| < 1 / 10 ^ 10
  · rw [if_pos h1, if_pos (Or.inl h1)]
  · by_cases h2 : (-sin (angle * DEG) - sin (lat * DEG) * sin dec) /
          (cos (lat * DEG) * cos dec) < -1 ∨
        1 < (-sin (angle * DEG) - sin (lat * DEG) * sin dec) /
          (cos (lat * DEG) * cos dec)
    · rw [if_neg h1, if_pos h2, if_pos (Or.inr h2)]
    · rw [if_neg h1, if_neg h2, if_neg (by tauto)]

/-! ## Interval toolkit for concrete trigonometric values -/

theorem sin_lip (a b : ℝ) : |sin a - sin b| ≤ |a - b| := by
  rw [Real.sin_sub_sin]
  have h1 : |sin ((a - b) / 2)| ≤ |(a - b) / 2| := abs_sin_le_abs
  have h2 : |cos ((a + b) / 2)| ≤ 1 := abs_cos_le_one _
  have h3 : (0 : ℝ) ≤ |sin ((a - b) / 2)| := abs_nonneg _
  calc |2 * sin ((a - b) / 2) * cos ((a + b) / 2)|
      = 2 * |sin ((a - b) / 2)| * |cos ((a + b) / 2)| := by
        rw [abs_mul, abs_mul, abs_two]
    _ ≤ 2 * |(a - b) / 2| * 1 := by gcongr
    _ = |a - b| := by rw [abs_div, abs_two]; ring

theorem sin_approx (x c ε : ℝ) (hx : |x - c| ≤ ε) (hc1 : -1 ≤ c) (hc2 : c ≤ 1) :
    |sin x - (c - c ^ 3 / 6)| ≤ ε + c ^ 4 * (5 / 96) :=
  calc |sin x - (c - c ^ 3 / 6)|
      ≤ |sin x - sin c| + |sin c - (c - c ^ 3 / 6)| := abs_sub_le _ _ _
    _ ≤ ε + |c| ^ 4 * (5 / 96) :=
        add_le_add ((sin_lip x c).trans hx) (Real.sin_bound (abs_le.mpr ⟨hc1, hc2⟩))
    _ = ε + c ^ 4 * (5 / 96) := by
        rw [pow_abs, abs_of_nonneg (by positivity : (0:ℝ) ≤ c ^ 4)]

theorem cos_lip (a b : ℝ) : |cos a - cos b| ≤ |a - b| := by
  rw [Real.cos_sub_cos]
  have h1 : |sin ((a - b) / 2)| ≤ |(a - b) / 2| := abs_sin_le_abs
  have h2 : |sin ((a + b) / 2)| ≤ 1 := abs_sin_le_one _
  calc |-2 * sin ((a + b) / 2) * sin ((a - b) / 2)|
      = 2 * |sin ((a + b) / 2)| * |sin ((a - b) / 2)| := by
        rw [abs_mul, abs_mul, abs_neg, abs_two]
    _ ≤ 2 * 1 * |(a - b) / 2| := by gcongr
    _ = |a - b| := by rw [abs_div, abs_two]; ring

theorem cos_approx (x c ε : ℝ) (hx : |x - c| ≤ ε) (hc1 : -1 ≤ c) (hc2 : c ≤ 1) :
    |cos x - (1 - c ^ 2 / 2)| ≤ ε + c ^ 4 * (5 / 96) :=
  calc |cos x - (1 - c ^ 2 / 2)|
      ≤ |cos x - cos c| + |cos c - (1 - c ^ 2 / 2)| := abs_sub_le _ _ _
    _ ≤ ε + |c| ^ 4 * (5 / 96) :=
        add_le_add ((cos_lip x c).trans hx) (Real.cos_bound (abs_le.mpr ⟨hc1, hc2⟩))
    _ = ε + c ^ 4 * (5 / 96) := by
        rw [pow_abs, abs_of_nonneg (by positivity : (0:ℝ) ≤ c ^ 4)]

theorem half_le_sin {y : ℝ} (h1 : π / 6 ≤ y) (h2 : y ≤ 5 * π / 6) : 1 / 2 ≤ sin y := by
  have hpi := pi_pos
  rcases le_total y (π / 2) with hy | hy
  · rw [← Real.sin_pi_div_six]
    exact Real.strictMonoOn_sin.monotoneOn
      (Set.mem_Icc.mpr ⟨by linarith, by linarith⟩)
      (Set.mem_Icc.mpr ⟨by linarith, hy⟩) h1
  · rw [← Real.sin_pi_sub, ← Real.sin_pi_div_six]
    exact Real.strictMonoOn_sin.monotoneOn
      (Set.mem_Icc.mpr ⟨by linarith, by linarith⟩)
      (Set.mem_Icc.mpr ⟨by linarith, by linarith⟩) (by linarith)

theorem arccos_antitone {x y : ℝ} (h : x ≤ y) : arccos y ≤ arccos x := by
  rw [Real.arccos_eq_pi_div_two_sub_arcsin, Real.arccos_eq_pi_div_two_sub_arcsin]
  exact sub_le_sub_left (Real.monotone_arcsin h) _

/-! ## Facts about `hourAngle` and the slot structure of the calculator -/

theorem DEG_pos : 0 < DEG := by
  unfold DEG
  positivity

theorem hourAngle_some_den {angle lat dec ha : ℝ}
    (h : hourAngle angle lat dec = some ha) :
    1 / 10 ^ 10 ≤ |cos (lat * DEG) * cos dec| := by
  unfold hourAngle at h
  by_cases h1 : |cos (lat * DEG) * cos dec| < 1 / 10 ^ 10
  · rw [if_pos h1] at h
    exact absurd h (by simp)
  · linarith [not_lt.mp h1]

theorem hourAngle_some_eq {angle lat dec ha : ℝ}
    (h : hourAngle angle lat dec = some ha) :
    ha = arccos ((-sin (angle * DEG) - sin (lat * DEG) * sin dec) /
      (cos (lat * DEG) * cos dec)) / DEG / 15 := by
  unfold hourAngle at h
  split_ifs at h with h1 h2
  exact (Option.some_injective ℝ h).symm

theorem hourAngle_some_nonneg {angle lat dec ha : ℝ}
    (h : hourAngle angle lat dec = some ha) : 0 ≤ ha := by
  rw [hourAngle_some_eq h]
  have := Real.arccos_nonneg ((-sin (angle * DEG) - sin (lat * DEG) * sin dec) /
    (cos (lat * DEG) * cos dec))
  have hd := DEG_pos
  positivity

theorem hourAngle_le {a₁ a₂ lat dec h₁ h₂ : ℝ}
    (hs : sin (a₁ * DEG) ≤ sin (a₂ * DEG))
    (hden : 0 ≤ cos (lat * DEG) * cos dec)
    (e₁ : hourAngle a₁ lat dec = some h₁)
    (e₂ : hourAngle a₂ lat dec = some h₂) : h₁ ≤ h₂ := by
  have hd := hourAngle_some_den e₁
  rw [abs_of_nonneg hden] at hd
  have hdpos : 0 < cos (lat * DEG) * cos dec := by positivity
  have hnum : -sin (a₂ * DEG) - sin (lat * DEG) * sin dec ≤
      -sin (a₁ * DEG) - sin (lat * DEG) * sin dec := by linarith
  have hval : (-sin (a₂ * DEG) - sin (lat * DEG) * sin dec) /
        (cos (lat * DEG) * cos dec) ≤
      (-sin (a₁ * DEG) - sin (lat * DEG) * sin dec) /
        (cos (lat * DEG) * cos dec) := by gcongr
  rw [hourAngle_some_eq e₁, hourAngle_some_eq e₂]
  have harc := arccos_antitone hval
  have hd15 : (0 : ℝ) < DEG := DEG_pos
  gcongr

theorem cosLat_nonneg {lat : ℝ} (h1 : -90 ≤ lat) (h2 : lat ≤ 90) :
    0 ≤ cos (lat * DEG) := by
  have hpi := pi_pos
  apply Real.cos_nonneg_of_mem_Icc
  unfold DEG
  constructor
  · nlinarith
  · nlinarith

theorem cos_sunDec_nonneg (jd : ℝ) : 0 ≤ cos (sunDec jd) :=
  Real.cos_nonneg_of_mem_Icc
    ⟨Real.neg_pi_div_two_le_arcsin _, Real.arcsin_le_pi_div_two _⟩

theorem sin_sunrise_le_sin_fajr : sin (0.833 * DEG) ≤ sin (15 * DEG) := by
  have hpi := pi_pos
  have h1 : (0.833 : ℝ) * DEG ∈ Set.Icc (-(π / 2)) (π / 2) := by
    unfold DEG
    constructor <;> nlinarith
  have h2 : (15 : ℝ) * DEG ∈ Set.Icc (-(π / 2)) (π / 2) := by
    unfold DEG
    constructor <;> nlinarith
  refine Real.strictMonoOn_sin.monotoneOn h1 h2 ?_
  have := DEG_pos
  nlinarith

theorem mem_toUTC_prayerTime {lat dec noon angle off x : ℝ} {b : Bool}
    (hx : x ∈ (prayerTime lat dec noon angle b).map (fun v => v - off)) :
    ∃ ha, hourAngle angle lat dec = some ha ∧
      x = noon + (if b then -ha else ha) - off := by
  unfold prayerTime at hx
  rw [Option.map_map] at hx
  rw [Option.mem_def, Option.map_eq_some'] at hx
  obtain ⟨ha, hha, hval⟩ := hx
  exact ⟨ha, hha, hval.symm⟩

theorem calc_Fajr_eq (Y M D : ℤ) (lat lon : ℝ) :
    (calcPrayerTimesUTC Y M D lat lon).Fajr =
      (prayerTime lat (sunDec (julianDay Y M D : ℝ))
        (12 - sunEqT (julianDay Y M D : ℝ)) 15 true).map (fun v => v - lon / 15) := rfl

theorem calc_Sunrise_eq (Y M D : ℤ) (lat lon : ℝ) :
    (calcPrayerTimesUTC Y M D lat lon).Sunrise =
      (prayerTime lat (sunDec (julianDay Y M D : ℝ))
        (12 - sunEqT (julianDay Y M D : ℝ)) 0.833 true).map (fun v => v - lon / 15) := rfl

theorem calc_Asr_eq (Y M D : ℤ) (lat lon : ℝ) :
    (calcPrayerTimesUTC Y M D lat lon).Asr =
      (prayerTime lat (sunDec (julianDay Y M D : ℝ))
        (12 - sunEqT (julianDay Y M D : ℝ))
        (-(shadowAngle lat (sunDec (julianDay Y M D : ℝ)))) false).map
        (fun v => v - lon / 15) := rfl

theorem calc_Maghrib_eq (Y M D : ℤ) (lat lon : ℝ) :
    (calcPrayerTimesUTC Y M D lat lon).Maghrib =
      (prayerTime lat (sunDec (julianDay Y M D : ℝ))
        (12 - sunEqT (julianDay Y M D : ℝ)) 0.833 false).map (fun v => v - lon / 15) := rfl

theorem calc_Isha_eq (Y M D : ℤ) (lat lon : ℝ) :
    (calcPrayerTimesUTC Y M D lat lon).Isha =
      (prayerTime lat (sunDec (julianDay Y M D : ℝ))
        (12 - sunEqT (julianDay Y M D : ℝ)) 15 false).map (fun v => v - lon / 15) := rfl

/-- C5 (amended): for latitude in `[-90, 90]`, whenever both slots of a
pair are solvable, the order Fajr ≤ Sunrise ≤ Dhuhr ≤ Asr and
Dhuhr ≤ Maghrib ≤ Isha holds (non-strictly); equality can occur, and the
Asr/Maghrib pair is not comparable in general. -/
theorem calc_ordering (Y M D : ℤ) (lat lon : ℝ) (hlat : -90 ≤ lat ∧ lat ≤ 90) :
    (∀ f ∈ (calcPrayerTimesUTC Y M D lat lon).Fajr,
      ∀ s ∈ (calcPrayerTimesUTC Y M D lat lon).Sunrise, f ≤ s) ∧
    (∀ s ∈ (calcPrayerTimesUTC Y M D lat lon).Sunrise,
      ∀ d ∈ (calcPrayerTimesUTC Y M D lat lon).Dhuhr, s ≤ d) ∧
    (∀ d ∈ (calcPrayerTimesUTC Y M D lat lon).Dhuhr,
      ∀ a ∈ (calcPrayerTimesUTC Y M D lat lon).Asr, d ≤ a) ∧
    (∀ d ∈ (calcPrayerTimesUTC Y M D lat lon).Dhuhr,
      ∀ m ∈ (calcPrayerTimesUTC Y M D lat lon).Maghrib, d ≤ m) ∧
    (∀ m ∈ (calcPrayerTimesUTC Y M D lat lon).Maghrib,
      ∀ i ∈ (calcPrayerTimesUTC Y M D lat lon).Isha, m ≤ i) := by
  have hden : 0 ≤ cos (lat * DEG) * cos (sunDec (julianDay Y M D : ℝ)) :=
    mul_nonneg (cosLat_nonneg hlat.1 hlat.2) (cos_sunDec_nonneg _)
  have hDh : (calcPrayerTimesUTC Y M D lat lon).Dhuhr =
      some ((12 - sunEqT (julianDay Y M D : ℝ)) - lon / 15) := rfl
  refine ⟨?_, ?_, ?_, ?_, ?_⟩
  · intro f hf s hs
    rw [calc_Fajr_eq] at hf
    rw [calc_Sunrise_eq] at hs
    obtain ⟨haF, eF, hfv⟩ := mem_toUTC_prayerTime hf
    obtain ⟨haS, eS, hsv⟩ := mem_toUTC_prayerTime hs
    have := hourAngle_le sin_sunrise_le_sin_fajr hden eS eF
    rw [hfv, hsv]
    simp only [if_pos]
    linarith
  · intro s hs d hd
    rw [calc_Sunrise_eq] at hs
    rw [hDh, Option.mem_some_iff] at hd
    obtain ⟨haS, eS, hsv⟩ := mem_toUTC_prayerTime hs
    have := hourAngle_some_nonneg eS
    rw [hsv, ← hd]
    simp only [if_pos]
    linarith
  · intro d hd a ha
    rw [calc_Asr_eq] at ha
    rw [hDh, Option.mem_some_iff] at hd
    obtain ⟨haA, eA, hav⟩ := mem_toUTC_prayerTime ha
    have := hourAngle_some_nonneg eA
    rw [hav, ← hd]
    simp only [if_neg Bool.false_ne_true]
    linarith
  · intro d hd m hm
    rw [calc_Maghrib_eq] at hm
    rw [hDh, Option.mem_some_iff] at hd
    obtain ⟨haM, eM, hmv⟩ := mem_toUTC_prayerTime hm
    have := hourAngle_some_nonneg eM
    rw [hmv, ← hd]
    simp only [if_neg Bool.false_ne_true]
    linarith
  · intro m hm i hi
    rw [calc_Maghrib_eq] at hm
    rw [calc_Isha_eq] at hi
    obtain ⟨haM, eM, hmv⟩ := mem_toUTC_prayerTime hm
    obtain ⟨haI, eI, hiv⟩ := mem_toUTC_prayerTime hi
    have := hourAngle_le sin_sunrise_le_sin_fajr hden eM eI
    rw [hmv, hiv]
    simp only [if_neg Bool.false_ne_true]
    linarith

/-! ## A concrete all-solvable input violating the strict ordering

Date 2023-12-21 (Julian day 2460300, northern winter solstice) and the
latitude whose radian value is exactly `dec + π/2 + 0.833°`. At this
latitude the sunrise/sunset hour-angle cosine is exactly 1, so Sunrise,
Dhuhr and Maghrib coincide, while the Asr slot stays solvable with a
strictly positive hour angle. -/

def jdC : ℝ := 2460300

def sinDecC : ℝ := sin (sunE jdC) * sin (sunL jdC)

def deltaC : ℝ := arcsin sinDecC

def betaR : ℝ := 0.833 * DEG

def latC : ℝ := (deltaC + π / 2 + betaR) / DEG

theorem cx_sunE_eq : sunE jdC = 23.4358482 * DEG := by
  unfold sunE sunD jdC
  norm_num

theorem cx_sinE : 0.3961 ≤ sin (sunE jdC) ∧ sin (sunE jdC) ≤ 0.3991 := by
  have hπ1 := Real.pi_gt_d6
  have hπ2 := Real.pi_lt_d6
  have hclose : |sunE jdC - 0.409025| ≤ 0.000008 := by
    rw [cx_sunE_eq]
    unfold DEG
    rw [abs_le]
    constructor <;> linarith
  have h := sin_approx _ 0.409025 0.000008 hclose (by norm_num) (by norm_num)
  rw [abs_le] at h
  obtain ⟨hl, hu⟩ := h
  norm_num at hl hu
  constructor <;> linarith

theorem cx_sunQ : sunQ jdC = 269.8016368 := by
  unfold sunQ sunD jdC jsRemR jsTruncR
  have hX : (280.459 : ℝ) + 0.98564736 * ((2460300 : ℝ) - 2451545) = 8909.8016368 := by
    norm_num
  rw [hX]
  have h0 : (0 : ℝ) ≤ (8909.8016368 : ℝ) / 360 := by norm_num
  rw [if_pos h0]
  have hfl : ⌊(8909.8016368 : ℝ) / 360⌋ = 24 := by
    rw [Int.floor_eq_iff]
    constructor <;> norm_num
  rw [hfl]
  norm_num

theorem cx_sinL : -1 ≤ sin (sunL jdC) ∧ sin (sunL jdC) ≤ -(1 / 2) := by
  refine ⟨Real.neg_one_le_sin _, ?_⟩
  have hπ1 := Real.pi_gt_d6
  have hπ2 := Real.pi_lt_d6
  have hg1 := Real.neg_one_le_sin (sunG jdC)
  have hg2 := Real.sin_le_one (sunG jdC)
  have hg3 := Real.neg_one_le_sin (2 * sunG jdC)
  have hg4 := Real.sin_le_one (2 * sunG jdC)
  have hLdef : sunL jdC =
      (sunQ jdC + 1.915 * sin (sunG jdC) + 0.020 * sin (2 * sunG jdC)) * DEG := rfl
  set ell := sunQ jdC + 1.915 * sin (sunG jdC) + 0.020 * sin (2 * sunG jdC) with hell_def
  have hell1 : 267.86 ≤ ell := by rw [hell_def, cx_sunQ]; linarith
  have hell2 : ell ≤ 271.74 := by rw [hell_def, cx_sunQ]; linarith
  have hy1 : 1.51 ≤ sunL jdC - π := by
    rw [hLdef]
    unfold DEG
    nlinarith [mul_nonneg (by linarith : (0:ℝ) ≤ ell - 267.86)
      (by linarith : (0:ℝ) ≤ π - 3.141592)]
  have hy2 : sunL jdC - π ≤ 1.61 := by
    rw [hLdef]
    unfold DEG
    nlinarith [mul_nonneg (by linarith : (0:ℝ) ≤ 271.74 - ell)
      (by linarith : (0:ℝ) ≤ π - 3.141592)]
  have h6 : 1 / 2 ≤ sin (sunL jdC - π) := half_le_sin (by linarith) (by linarith)
  have h5 := Real.sin_sub_pi (sunL jdC)
  linarith

theorem cx_s : -0.3991 ≤ sinDecC ∧ sinDecC ≤ -0.198 := by
  obtain ⟨hE1, hE2⟩ := cx_sinE
  obtain ⟨hL1, hL2⟩ := cx_sinL
  have hE0 : (0:ℝ) ≤ sin (sunE jdC) := by linarith
  unfold sinDecC
  constructor
  · have e3 : sin (sunE jdC) * (-1) ≤ sin (sunE jdC) * sin (sunL jdC) :=
      mul_le_mul_of_nonneg_left hL1 hE0
    nlinarith
  · have e1 : sin (sunE jdC) * sin (sunL jdC) ≤ sin (sunE jdC) * (-(1/2)) :=
      mul_le_mul_of_nonneg_left hL2 hE0
    nlinarith

theorem cx_sin_delta : sin deltaC = sinDecC := by
  unfold deltaC
  refine Real.sin_arcsin ?_ ?_ <;> [linarith [cx_s.1]; linarith [cx_s.2]]

theorem cx_cos_delta_eq : cos deltaC = Real.sqrt (1 - sinDecC ^ 2) := by
  unfold deltaC
  exact Real.cos_arcsin _

theorem cx_cos_delta : 0.9169 ≤ cos deltaC ∧ cos deltaC ≤ 0.98021 := by
  obtain ⟨hs1, hs2⟩ := cx_s
  rw [cx_cos_delta_eq]
  constructor
  · rw [Real.le_sqrt (by norm_num) (by nlinarith)]
    nlinarith
  · calc Real.sqrt (1 - sinDecC ^ 2) ≤ Real.sqrt (0.960796) := by
          apply Real.sqrt_le_sqrt
          nlinarith
      _ ≤ Real.sqrt (0.98021 ^ 2) := by
          apply Real.sqrt_le_sqrt
          norm_num
      _ = 0.98021 := Real.sqrt_sq (by norm_num)

theorem cx_beta_close : |betaR - 0.01453859| ≤ 0.00000001 := by
  have h1 := Real.pi_gt_d6
  have h2 := Real.pi_lt_d6
  unfold betaR DEG
  rw [abs_le]
  constructor <;> linarith

theorem cx_sin_beta : 0.0145380 ≤ sin betaR ∧ sin betaR ≤ 0.0145381 := by
  have h := sin_approx betaR 0.01453859 0.00000001 cx_beta_close (by norm_num) (by norm_num)
  rw [abs_le] at h
  obtain ⟨hl, hu⟩ := h
  norm_num at hl hu
  constructor <;> linarith

theorem cx_cos_beta : 0.999894 ≤ cos betaR ∧ cos betaR ≤ 0.999895 := by
  have h := cos_approx betaR 0.01453859 0.00000001 cx_beta_close (by norm_num) (by norm_num)
  rw [abs_le] at h
  obtain ⟨hl, hu⟩ := h
  norm_num at hl hu
  constructor <;> linarith

theorem cx_sin15 : 0.2585 ≤ sin (15 * DEG) ∧ sin (15 * DEG) ≤ 0.2591 := by
  have hπ1 := Real.pi_gt_d6
  have hπ2 := Real.pi_lt_d6
  have hclose : |(15 : ℝ) * DEG - 0.2617994| ≤ 0.0000001 := by
    unfold DEG
    rw [abs_le]
    constructor <;> linarith
  have h := sin_approx _ 0.2617994 0.0000001 hclose (by norm_num) (by norm_num)
  rw [abs_le] at h
  obtain ⟨hl, hu⟩ := h
  norm_num at hl hu
  constructor <;> linarith

theorem cx_latDEG : latC * DEG = deltaC + π / 2 + betaR := by
  unfold latC
  exact div_mul_cancel₀ _ (ne_of_gt DEG_pos)

theorem cx_sinLat : sin (latC * DEG) = cos (deltaC + betaR) := by
  rw [cx_latDEG, show deltaC + π / 2 + betaR = deltaC + betaR + π / 2 by ring,
    Real.sin_add_pi_div_two]

theorem cx_cosLat : cos (latC * DEG) = -sin (deltaC + betaR) := by
  rw [cx_latDEG, show deltaC + π / 2 + betaR = deltaC + betaR + π / 2 by ring,
    Real.cos_add_pi_div_two]

theorem cx_sindb : -0.38578 ≤ sin (deltaC + betaR) ∧ sin (deltaC + betaR) ≤ -0.18372 := by
  have hadd := Real.sin_add deltaC betaR
  rw [cx_sin_delta] at hadd
  obtain ⟨hs1, hs2⟩ := cx_s
  obtain ⟨hcb1, hcb2⟩ := cx_cos_beta
  obtain ⟨hsb1, hsb2⟩ := cx_sin_beta
  obtain ⟨hcd1, hcd2⟩ := cx_cos_delta
  constructor
  · rw [hadd]
    nlinarith
  · rw [hadd]
    nlinarith

theorem cx_den : 0.168 ≤ cos (latC * DEG) * cos deltaC ∧
    cos (latC * DEG) * cos deltaC ≤ 0.3782 := by
  rw [cx_cosLat]
  obtain ⟨hdb1, hdb2⟩ := cx_sindb
  obtain ⟨hcd1, hcd2⟩ := cx_cos_delta
  constructor <;> nlinarith

theorem cx_key : -(sin (latC * DEG) * sin deltaC) =
    cos (latC * DEG) * cos deltaC + sin betaR := by
  have hsub : sin betaR =
      sin (deltaC + betaR) * cos deltaC - cos (deltaC + betaR) * sinDecC := by
    have h := Real.sin_sub (deltaC + betaR) deltaC
    rw [show deltaC + betaR - deltaC = betaR by ring, cx_sin_delta] at h
    exact h
  rw [cx_sinLat, cx_cosLat, cx_sin_delta, hsub]
  ring

theorem cx_den_ne : ¬ |cos (latC * DEG) * cos deltaC| < 1 / 10 ^ 10 := by
  have h := cx_den.1
  rw [abs_of_nonneg (by linarith), not_lt]
  linarith

theorem cx_sunrise_ha : hourAngle 0.833 latC deltaC = some 0 := by
  unfold hourAngle
  rw [if_neg cx_den_ne]
  have hb : sin ((0.833 : ℝ) * DEG) = sin betaR := rfl
  have hnum : -sin ((0.833 : ℝ) * DEG) - sin (latC * DEG) * sin deltaC =
      cos (latC * DEG) * cos deltaC := by
    rw [hb]
    linarith [cx_key]
  rw [hnum]
  have hval : cos (latC * DEG) * cos deltaC / (cos (latC * DEG) * cos deltaC) = 1 :=
    div_self (by linarith [cx_den.1])
  rw [hval, if_neg (by norm_num), Real.arccos_one]
  norm_num

theorem cx_fajr_num : -sin ((15 : ℝ) * DEG) - sin (latC * DEG) * sin deltaC =
    cos (latC * DEG) * cos deltaC + sin betaR - sin (15 * DEG) := by
  linarith [cx_key]

theorem cx_fajr_ha : ∃ h, hourAngle 15 latC deltaC = some h := by
  unfold hourAngle
  rw [if_neg cx_den_ne, cx_fajr_num]
  have hden1 := cx_den.1
  have hden2 := cx_den.2
  have hsb := cx_sin_beta
  have hs15 := cx_sin15
  have hdpos : (0:ℝ) < cos (latC * DEG) * cos deltaC := by linarith
  have hle1 : (cos (latC * DEG) * cos deltaC + sin betaR - sin (15 * DEG)) /
      (cos (latC * DEG) * cos deltaC) ≤ 1 := by
    rw [div_le_one hdpos]
    linarith [hsb.2, hs15.1]
  have hle2 : -1 ≤ (cos (latC * DEG) * cos deltaC + sin betaR - sin (15 * DEG)) /
      (cos (latC * DEG) * cos deltaC) := by
    rw [le_div_iff₀ hdpos]
    nlinarith [hsb.1, hs15.2]
  rw [if_neg (by push_neg; constructor <;> linarith)]
  exact ⟨_, rfl⟩

theorem cx_w_bounds : 0.014753 ≤ sin betaR / (cos betaR - sin betaR) ∧
    sin betaR / (cos betaR - sin betaR) ≤ 0.014755 := by
  obtain ⟨hsb1, hsb2⟩ := cx_sin_beta
  obtain ⟨hcb1, hcb2⟩ := cx_cos_beta
  have hd : (0:ℝ) < cos betaR - sin betaR := by linarith
  constructor
  · rw [le_div_iff₀ hd]
    nlinarith
  · rw [div_le_iff₀ hd]
    nlinarith

theorem cx_asr_angle : (-(shadowAngle latC deltaC)) * DEG =
    arctan (sin betaR / (cos betaR - sin betaR)) := by
  obtain ⟨hsb1, hsb2⟩ := cx_sin_beta
  obtain ⟨hcb1, hcb2⟩ := cx_cos_beta
  have hβpos : 0 < betaR := mul_pos (by norm_num) DEG_pos
  have habs : |latC * DEG - deltaC| = π / 2 + betaR := by
    rw [cx_latDEG, show deltaC + π / 2 + betaR - deltaC = π / 2 + betaR by ring]
    exact abs_of_pos (by linarith [pi_pos])
  have hsin : sin (π / 2 + betaR) = cos betaR := by
    rw [show π / 2 + betaR = betaR + π / 2 by ring, Real.sin_add_pi_div_two]
  have hcos : cos (π / 2 + betaR) = -sin betaR := by
    rw [show π / 2 + betaR = betaR + π / 2 by ring, Real.cos_add_pi_div_two]
  have htan : Real.tan (π / 2 + betaR) = cos betaR / (-sin betaR) := by
    rw [Real.tan_eq_sin_div_cos, hsin, hcos]
  have hsb0 : sin betaR ≠ 0 := by linarith
  have harg : 1 / (1 + cos betaR / (-sin betaR)) =
      -(sin betaR / (cos betaR - sin betaR)) := by
    rw [div_neg, ← sub_eq_add_neg]
    have hstep : (1 : ℝ) - cos betaR / sin betaR =
        (sin betaR - cos betaR) / sin betaR := by
      rw [eq_div_iff hsb0, sub_mul, one_mul, div_mul_cancel₀ _ hsb0]
    rw [hstep, one_div_div,
      show sin betaR - cos betaR = -(cos betaR - sin betaR) by ring, div_neg]
  unfold shadowAngle
  rw [habs, htan, harg, Real.arctan_neg]
  field_simp [ne_of_gt DEG_pos]

theorem cx_asr_ha : ∃ h, hourAngle (-(shadowAngle latC deltaC)) latC deltaC = some h ∧
    0 < h := by
  obtain ⟨hsb1, hsb2⟩ := cx_sin_beta
  obtain ⟨hcb1, hcb2⟩ := cx_cos_beta
  obtain ⟨hw1, hw2⟩ := cx_w_bounds
  have hden1 := cx_den.1
  have hden2 := cx_den.2
  have hdpos : (0:ℝ) < cos (latC * DEG) * cos deltaC := by linarith
  set w := sin betaR / (cos betaR - sin betaR) with hw_def
  have hw0 : (0:ℝ) ≤ w := by linarith
  have hsq1 : 1 ≤ Real.sqrt (1 + w ^ 2) := by
    have h := Real.sqrt_le_sqrt (show (1:ℝ) ≤ 1 + w ^ 2 by nlinarith)
    rwa [Real.sqrt_one] at h
  have hsq2 : Real.sqrt (1 + w ^ 2) ≤ 1 + w := by
    calc Real.sqrt (1 + w ^ 2) ≤ Real.sqrt ((1 + w) ^ 2) := by
          apply Real.sqrt_le_sqrt
          nlinarith
      _ = 1 + w := Real.sqrt_sq (by linarith)
  have hsqpos : (0:ℝ) < Real.sqrt (1 + w ^ 2) := by linarith
  have hsinA : sin ((-(shadowAngle latC deltaC)) * DEG) = w / Real.sqrt (1 + w ^ 2) := by
    rw [cx_asr_angle, Real.sin_arctan]
  -- sin betaR < w / sqrt (1 + w^2), via w / (1 + w) = sin betaR / cos betaR
  have hfr : w / (1 + w) = sin betaR / cos betaR := by
    rw [hw_def]
    have h1 : cos betaR - sin betaR ≠ 0 := by linarith
    have h2 : cos betaR ≠ 0 := by linarith
    field_simp
  have hgt : sin betaR < w / Real.sqrt (1 + w ^ 2) := by
    have step1 : sin betaR < sin betaR / cos betaR := by
      rw [lt_div_iff₀ (by linarith : (0:ℝ) < cos betaR)]
      nlinarith
    have step2 : w / (1 + w) ≤ w / Real.sqrt (1 + w ^ 2) := by
      apply div_le_div_of_nonneg_left hw0 hsqpos hsq2
    rw [hfr] at step2
    linarith
  have hnum : -sin ((-(shadowAngle latC deltaC)) * DEG) - sin (latC * DEG) * sin deltaC =
      cos (latC * DEG) * cos deltaC + sin betaR - w / Real.sqrt (1 + w ^ 2) := by
    rw [hsinA]
    linarith [cx_key]
  have hwsq : w / Real.sqrt (1 + w ^ 2) ≤ w := by
    calc w / Real.sqrt (1 + w ^ 2) ≤ w / 1 := div_le_div_of_nonneg_left hw0 (by norm_num) hsq1
      _ = w := div_one w
  have hwsq0 : 0 ≤ w / Real.sqrt (1 + w ^ 2) := div_nonneg hw0 (by linarith)
  unfold hourAngle
  rw [if_neg cx_den_ne, hnum]
  have hlt1 : (cos (latC * DEG) * cos deltaC + sin betaR - w / Real.sqrt (1 + w ^ 2)) /
      (cos (latC * DEG) * cos deltaC) < 1 := by
    rw [div_lt_one hdpos]
    linarith
  have hge1 : -1 ≤ (cos (latC * DEG) * cos deltaC + sin betaR - w / Real.sqrt (1 + w ^ 2)) /
      (cos (latC * DEG) * cos deltaC) := by
    rw [le_div_iff₀ hdpos]
    nlinarith
  rw [if_neg (by push_neg; constructor <;> linarith)]
  refine ⟨_, rfl, ?_⟩
  have harc : 0 < arccos ((cos (latC * DEG) * cos deltaC + sin betaR -
      w / Real.sqrt (1 + w ^ 2)) / (cos (latC * DEG) * cos deltaC)) :=
    Real.arccos_pos.mpr hlt1
  have hD := DEG_pos
  positivity

theorem cx_lat_range : -90 ≤ latC ∧ latC ≤ 90 := by
  have hπ1 := Real.pi_gt_d6
  have hπ2 := Real.pi_lt_d6
  obtain ⟨hsb1, hsb2⟩ := cx_sin_beta
  have hD := DEG_pos
  have hβ2 : betaR < π / 2 := by
    unfold betaR DEG
    nlinarith
  have hβpos : 0 < betaR := by
    unfold betaR
    positivity
  have hup : deltaC ≤ -betaR := by
    have h1 : sinDecC ≤ sin (-betaR) := by
      rw [Real.sin_neg]
      have habs : |sin betaR| ≤ |betaR| := abs_sin_le_abs
      rw [abs_of_pos hβpos, abs_of_nonneg (by linarith : (0:ℝ) ≤ sin betaR)] at habs
      have := cx_s.2
      linarith
    have h2 : arcsin sinDecC ≤ arcsin (sin (-betaR)) := Real.monotone_arcsin h1
    rwa [Real.arcsin_sin (by linarith) (by linarith)] at h2
  have hlo : -(π / 2) ≤ deltaC := Real.neg_pi_div_two_le_arcsin _
  constructor
  · unfold latC
    rw [le_div_iff₀ hD]
    unfold DEG
    nlinarith
  · unfold latC
    rw [div_le_iff₀ hD]
    unfold DEG
    nlinarith

theorem cx_jd_cast : ((julianDay 2023 12 21 : ℤ) : ℝ) = jdC := by
  have h : julianDay 2023 12 21 = 2460300 := by decide
  rw [h]
  unfold jdC
  norm_num

/-- Counterexample to C5 as stated: on 2023-12-21 at longitude 0 and the
in-range latitude `latC` (about 67.5 degrees north), all six slots are
solvable, yet the Sunrise and Dhuhr instants are equal (and so is Maghrib),
and the Asr instant is strictly greater than the Maghrib instant - so the
six values are not strictly increasing, and the Asr/Maghrib pair is in the
wrong order. -/
theorem calc_strict_ordering_fails :
    (-90 ≤ latC ∧ latC ≤ 90) ∧
    ((calcPrayerTimesUTC 2023 12 21 latC 0).Fajr.isSome = true ∧
      (calcPrayerTimesUTC 2023 12 21 latC 0).Sunrise.isSome = true ∧
      (calcPrayerTimesUTC 2023 12 21 latC 0).Dhuhr.isSome = true ∧
      (calcPrayerTimesUTC 2023 12 21 latC 0).Asr.isSome = true ∧
      (calcPrayerTimesUTC 2023 12 21 latC 0).Maghrib.isSome = true ∧
      (calcPrayerTimesUTC 2023 12 21 latC 0).Isha.isSome = true) ∧
    (calcPrayerTimesUTC 2023 12 21 latC 0).Sunrise =
      (calcPrayerTimesUTC 2023 12 21 latC 0).Dhuhr ∧
    (∀ m ∈ (calcPrayerTimesUTC 2023 12 21 latC 0).Maghrib,
      ∀ a ∈ (calcPrayerTimesUTC 2023 12 21 latC 0).Asr, m < a) := by
  obtain ⟨hF, hFeq⟩ := cx_fajr_ha
  obtain ⟨hA, hAeq, hApos⟩ := cx_asr_ha
  have hD : sunDec ((julianDay 2023 12 21 : ℤ) : ℝ) = deltaC := by
    rw [cx_jd_cast]
    rfl
  refine ⟨cx_lat_range, ⟨?_, ?_, ?_, ?_, ?_, ?_⟩, ?_, ?_⟩
  · rw [calc_Fajr_eq, hD]
    unfold prayerTime
    rw [hFeq]
    rfl
  · rw [calc_Sunrise_eq, hD]
    unfold prayerTime
    rw [cx_sunrise_ha]
    rfl
  · rfl
  · rw [calc_Asr_eq, hD]
    unfold prayerTime
    rw [hAeq]
    rfl
  · rw [calc_Maghrib_eq, hD]
    unfold prayerTime
    rw [cx_sunrise_ha]
    rfl
  · rw [calc_Isha_eq, hD]
    unfold prayerTime
    rw [hFeq]
    rfl
  · rw [calc_Sunrise_eq, hD]
    unfold prayerTime
    rw [cx_sunrise_ha]
    show some (12 - sunEqT ((julianDay 2023 12 21 : ℤ) : ℝ) + -0 - 0 / 15) = _
    rw [show (12 : ℝ) - sunEqT ((julianDay 2023 12 21 : ℤ) : ℝ) + -0 - 0 / 15 =
      (12 - sunEqT ((julianDay 2023 12 21 : ℤ) : ℝ)) - 0 / 15 by ring]
    rfl
  · intro m hm a ha
    rw [calc_Maghrib_eq, hD] at hm
    rw [calc_Asr_eq, hD] at ha
    unfold prayerTime at hm ha
    rw [cx_sunrise_ha] at hm
    rw [hAeq] at ha
    simp only [Option.map_some', Option.mem_def, Option.some_inj] at hm ha
    rw [← hm, ← ha]
    simp only [Bool.false_eq_true, if_false]
    linarith

/-- Witness for the amended C5 at a concrete input. -/
theorem calc_ordering_witness :
    (∀ f ∈ (calcPrayerTimesUTC 2023 12 21 0 0).Fajr,
      ∀ s ∈ (calcPrayerTimesUTC 2023 12 21 0 0).Sunrise, f ≤ s) ∧
    (∀ s ∈ (calcPrayerTimesUTC 2023 12 21 0 0).Sunrise,
      ∀ d ∈ (calcPrayerTimesUTC 2023 12 21 0 0).Dhuhr, s ≤ d) ∧
    (∀ d ∈ (calcPrayerTimesUTC 2023 12 21 0 0).Dhuhr,
      ∀ a ∈ (calcPrayerTimesUTC 2023 12 21 0 0).Asr, d ≤ a) ∧
    (∀ d ∈ (calcPrayerTimesUTC 2023 12 21 0 0).Dhuhr,
      ∀ m ∈ (calcPrayerTimesUTC 2023 12 21 0 0).Maghrib, d ≤ m) ∧
    (∀ m ∈ (calcPrayerTimesUTC 2023 12 21 0 0).Maghrib,
      ∀ i ∈ (calcPrayerTimesUTC 2023 12 21 0 0).Isha, m ≤ i) :=
  calc_ordering 2023 12 21 0 0 (by norm_num)

end

end PrayerAddon
